import Mathlib

/-!
# TurtleCam motion pipeline — verification of the specification against the code

Shallow embedding of the motion-tracking and event-aggregation pipeline of the
TurtleCam repository (`src/motion_detector.py`, `src/gif_builder.py`,
`src/database.py`), together with theorems settling the specification claims.

Modelling conventions:
* Python floats are modelled as exact rationals (`ℚ`); the constants involved
  (0.8, 0.3, 0.1, 0.7) and all comparisons near them are far from any binary
  rounding boundary.
* Python `int(x)` on the nonnegative values arising here is truncation towards
  zero, which coincides with the floor; it is modelled by `Nat.floor`.
* Results of OpenCV primitives (template matching score/location, contour
  bounding rectangles) are passed in as parameters; the geometric guarantees
  OpenCV provides (a bounding rectangle lies inside its image, a match location
  lies inside the correlation result array) appear as hypotheses.
-/

namespace Turtlecam

/-- Python `int()` applied to a nonnegative rational: truncation towards zero,
which on nonnegative inputs is the floor. -/
def pyInt (q : ℚ) : ℕ := ⌊q⌋₊

/-- A bounding box `(x, y, w, h)` in pixel coordinates, as produced by
`TurtleTracker` / `MotionDetector._compare_still_frames`.  All four components
are nonnegative integers. -/
structure Bbox where
  x : ℕ
  y : ℕ
  w : ℕ
  h : ℕ
deriving DecidableEq, Repr

/-- The bounding-box invariant of the spec for a `frame_width × frame_height`
frame: `0 ≤ x`, `0 ≤ y`, `x+width ≤ frame_width`, `y+height ≤ frame_height`.
The two lower bounds are stated explicitly to mirror the spec even though they
are trivial over `ℕ`. -/
def inFrame (W H : ℕ) (b : Bbox) : Prop :=
  0 ≤ b.x ∧ 0 ≤ b.y ∧ b.x + b.w ≤ W ∧ b.y + b.h ≤ H

instance (W H : ℕ) (b : Bbox) : Decidable (inFrame W H b) := by
  unfold inFrame; infer_instance

/-! ## TurtleTracker (`src/motion_detector.py` lines 38–195)

The tracker's decisions depend on two image-analysis primitives:

* `_turtle_localization_comparison` — a fresh frame-difference/contour pass
  over the full frames; it returns `(True, bbox)` or `(False, None)`.
* the template-matching step inside `_template_tracking_comparison` — it
  produces a matched box when normalized cross-correlation exceeds 0.6 and the
  template/search regions are non-degenerate.

Both are modelled as `Option Bbox` parameters (`locRes`, `tmplRes`): `some b`
when the primitive finds a box, `none` otherwise.  The geometric construction
of each box is modelled separately below for the bounds claims. -/

/-- `TurtleTracker` mutable state: `last_bbox` (the lock) and
`tracking_confidence`. -/
structure TrackerState where
  last_bbox : Option Bbox
  tracking_confidence : ℚ
deriving DecidableEq, Repr

/-- `TurtleTracker._smooth_bbox` with the default `alpha = 0.7`:
componentwise `int(0.7*new + 0.3*old)`. -/
def smooth_bbox (newB oldB : Bbox) : Bbox :=
  ⟨pyInt (0.7 * newB.x + 0.3 * oldB.x),
   pyInt (0.7 * newB.y + 0.3 * oldB.y),
   pyInt (0.7 * newB.w + 0.3 * oldB.w),
   pyInt (0.7 * newB.h + 0.3 * oldB.h)⟩

/-- `TurtleTracker._template_tracking_comparison`, at the level of its two
underlying primitives: if the template step produced an accepted match
(`tmplRes = some b`) the match is returned; in every other case (score ≤ 0.6,
degenerate template, empty search area, exception) the method falls back to
`_turtle_localization_comparison`, whose result is `locRes`. -/
def template_tracking_comparison (tmplRes locRes : Option Bbox) :
    Bool × Option Bbox :=
  match tmplRes with
  | some b => (true, some b)
  | none =>
    match locRes with
    | some b => (true, some b)
    | none => (false, none)

/-- `TurtleTracker.track_turtle`.  Returns the `(has_motion, bbox)` pair
together with the updated tracker state.

* Without a lock (`last_bbox = None`) it runs the localization comparison and,
  on success, acquires the lock with confidence 1.0.
* With a lock it runs `_template_tracking_comparison`; on
  `has_motion and bbox` it stores the smoothed box and bumps confidence by 0.1
  (capped at 1.0); otherwise it multiplies confidence by 0.8 and, when the
  decayed confidence is strictly below 0.3, clears the lock before returning
  `(False, self.last_bbox)`. -/
def track_turtle (st : TrackerState) (tmplRes locRes : Option Bbox) :
    (Bool × Option Bbox) × TrackerState :=
  match st.last_bbox with
  | none =>
    match locRes with
    | some b => ((true, some b), ⟨some b, 1⟩)
    | none => ((false, none), st)
  | some last =>
    match template_tracking_comparison tmplRes locRes with
    | (true, some b) =>
      let sb := smooth_bbox b last
      ((true, some sb), ⟨some sb, min 1 (st.tracking_confidence + 0.1)⟩)
    | _ =>
      let conf := st.tracking_confidence * 0.8
      if conf < 0.3 then ((false, none), ⟨none, conf⟩)
      else ((false, some last), ⟨some last, conf⟩)

/-- One `track_turtle` call in which both the template match and the
comparator fallback fail, keeping only the state (used for the consecutive
failure claims). -/
def failStep (st : TrackerState) : TrackerState :=
  (track_turtle st none none).2

/-- `failStep` iterated from a freshly locked state (`last_bbox = b`,
`tracking_confidence = 1.0`). -/
def failIter (b : Bbox) : ℕ → TrackerState
  | 0 => ⟨some b, 1⟩
  | k + 1 => failStep (failIter b k)

/-! ## Bounding-box geometry of the comparator and tracker

`MotionDetector._compare_still_frames` (lines 307–364) finds a contour
bounding rectangle `(x_small, y_small, w_small, h_small)` in the downscaled
`comparison_width × comparison_height` image and scales it back with
`scale_x = capture_width / comparison_width` (a float division) and `int(...)`
truncation.  `TurtleTracker._turtle_localization_comparison` (lines 111–125)
does the same with the fixed 320 × 240 medium image; both are instances of
`scale_bbox`. -/

/-- Scale a bounding rectangle found in a `cw × ch` downscaled image back to
full-resolution `W × H` coordinates: componentwise `int(v * (W / cw))`
(resp. `H / ch`). -/
def scale_bbox (W H cw ch : ℕ) (bs : Bbox) : Bbox :=
  ⟨pyInt (bs.x * ((W : ℚ) / cw)), pyInt (bs.y * ((H : ℚ) / ch)),
   pyInt (bs.w * ((W : ℚ) / cw)), pyInt (bs.h * ((H : ℚ) / ch))⟩

/-! `TurtleTracker._template_tracking_comparison` (lines 133–175) extracts a
template around the previous bbox with margin 20, clamped to the frame
(`y1 = max(0, y-20)`, `y2 = min(H, y+h+20)`, ...), a search window with margin
100, and on an accepted match at `max_loc = (mx, my)` inside the correlation
result returns `(search_x1 + mx, search_y1 + my, w, h)`.  Over `ℕ`,
`max 0 (a - c)` is truncated subtraction `a - c`. -/

/-- Width of the extracted template: `min W (x+w+20) - max 0 (x-20)`. -/
def tmpl_w (W : ℕ) (b : Bbox) : ℕ := min W (b.x + b.w + 20) - (b.x - 20)

/-- Height of the extracted template: `min H (y+h+20) - max 0 (y-20)`. -/
def tmpl_h (H : ℕ) (b : Bbox) : ℕ := min H (b.y + b.h + 20) - (b.y - 20)

/-- Width of the search window: `min W (x+w+100) - max 0 (x-100)`. -/
def search_w (W : ℕ) (b : Bbox) : ℕ := min W (b.x + b.w + 100) - (b.x - 100)

/-- Height of the search window: `min H (y+h+100) - max 0 (y-100)`. -/
def search_h (H : ℕ) (b : Bbox) : ℕ := min H (b.y + b.h + 100) - (b.y - 100)

/-- The bounding box produced by an accepted template match at location
`(mx, my)` of the correlation result: the matched position in full-frame
coordinates, with the previous box's size held constant. -/
def template_match_bbox (prev : Bbox) (mx my : ℕ) : Bbox :=
  ⟨(prev.x - 100) + mx, (prev.y - 100) + my, prev.w, prev.h⟩

/-! ## Corruption filter (`MotionDetector._is_frame_corrupted`, lines 269–291)

A frame is modelled as a list of rows, each row the list of the scalar
intensity values numpy sees in it (for an RGB frame the row's channel values,
flattened — `np.mean`/`np.std` reduce over all scalars and `np.unique` over
the row's scalars, so this is exactly numpy's view).  The `frame is None`
guard has no counterpart here; `frame.size == 0` is `pixCount = 0`.
`np.std` is the square root of the population variance
`E[x²] - (E[x])²`; since `std ≥ 0`, the source's `std < 1 or std > 100` is
equivalent to `var < 1 or var > 100²`, which is how it is phrased here to
stay in exact rational arithmetic. -/

/-- Total number of scalar values in the frame (`frame.size`). -/
def pixCount (f : List (List ℕ)) : ℕ := (f.map (fun r => r.length)).sum

/-- Sum of all scalar values. -/
def pixSum (f : List (List ℕ)) : ℕ := (f.map (fun r => r.sum)).sum

/-- Sum of the squares of all scalar values. -/
def pixSqSum (f : List (List ℕ)) : ℕ :=
  (f.map (fun r => (r.map (fun v => v * v)).sum)).sum

/-- `np.mean(frame)` as an exact rational. -/
def frameMean (f : List (List ℕ)) : ℚ := (pixSum f : ℚ) / (pixCount f : ℚ)

/-- Population variance `np.std(frame)²` as an exact rational. -/
def frameVar (f : List (List ℕ)) : ℚ :=
  (pixSqSum f : ℚ) / (pixCount f : ℚ) - frameMean f ^ 2

/-- The sampled middle row `frame[frame.shape[0] // 2, :]`. -/
def middleRow (f : List (List ℕ)) : List ℕ := f.getD (f.length / 2) []

/-- Number of distinct values in a row (`len(np.unique(row))`). -/
def uniqueCount (row : List ℕ) : ℕ := row.dedup.length

/-- `MotionDetector._is_frame_corrupted`. -/
def is_frame_corrupted (f : List (List ℕ)) : Bool :=
  if pixCount f = 0 then true
  else if frameMean f < 5 ∨ 250 < frameMean f then true
  -- std < 1 or std > 100, compared as variances (see the section comment)
  else if frameVar f < 1 ∨ 100 ^ 2 < frameVar f then true
  else if 100 < f.length then
    -- stripe check: only for frames with more than 100 rows
    if uniqueCount (middleRow f) < 10 then true else false
  else false

/-! ## Decimation (`AlertBuilder._decimate_frames`, `src/gif_builder.py` 82–98) -/

/-- `AlertBuilder._decimate_frames` with the configured
`config.alert.max_frames = maxF`: when the input exceeds `maxF` frames, the
loop `for i in range(maxF)` appends `frames[int(i * decimation)]` where
`decimation = len(frames) / maxF` (float division), guarded by
`index < len(frames)`. -/
def decimate_frames {α : Type} (maxF : ℕ) (frames : List α) : List α :=
  if frames.length ≤ maxF then frames
  else
    -- the loop body computes `index = int(i * decimation)` once; it is
    -- written out at both of its uses here
    (List.range maxF).filterMap (fun (i : ℕ) =>
      if pyInt ((i : ℚ) * ((frames.length : ℚ) / (maxF : ℚ))) < frames.length
      then frames[pyInt ((i : ℚ) * ((frames.length : ℚ) / (maxF : ℚ)))]?
      else none)

/-! ## Motion-event buffering (`MotionDetector.start`, lines 594–627) -/

/-- Appending one motion frame to the current event
(`self.current_event_frames.append(...)` followed by
`if len(...) > config.alert.max_frames: self.current_event_frames.pop(0)`).
`pop(0)` removes the head, i.e. `drop 1`. -/
def event_append {α : Type} (maxF : ℕ) (buf : List α) (f : α) : List α :=
  let buf2 := buf ++ [f]
  if maxF < buf2.length then buf2.drop 1 else buf2

/-- Feeding a sequence of motion frames into one event, starting from the
empty buffer. -/
def event_feed {α : Type} (maxF : ℕ) (l : List α) : List α :=
  l.foldl (event_append maxF) []

/-- Aggregator state: the open event's frames (represented by their capture
times), `last_motion_time`, and the record of flushed events.  Times are
rationals, modelling the float seconds of the source. -/
structure AggState where
  current_event_frames : List ℚ
  last_motion_time : ℚ
  flushed : List (List ℚ)
deriving DecidableEq, Repr

/-- The initial aggregator state of `MotionDetector.__init__`: empty buffer,
`last_motion_time = 0`, nothing flushed. -/
def agg_init : AggState := ⟨[], 0, []⟩

/-- One iteration of the event-lifecycle part of the `MotionDetector.start`
loop at time `t`:  on motion, set `last_motion_time`, append the frame, and
cap the buffer; on no motion, flush (`_process_motion_event`: persist the
frames and clear the buffer) exactly when the buffer is non-empty and
`current_time - last_motion_time > inactivity_timeout`. -/
def agg_step (timeout : ℚ) (maxF : ℕ) (st : AggState) (t : ℚ) (hasMotion : Bool) :
    AggState :=
  if hasMotion then
    { current_event_frames := event_append maxF st.current_event_frames t,
      last_motion_time := t,
      flushed := st.flushed }
  else
    if st.current_event_frames ≠ [] ∧ timeout < t - st.last_motion_time then
      { current_event_frames := [],
        last_motion_time := st.last_motion_time,
        flushed := st.flushed ++ [st.current_event_frames] }
    else st

/-- Run the aggregator over a list of `(time, has_motion)` observations. -/
def agg_run (timeout : ℚ) (maxF : ℕ) (steps : List (ℚ × Bool)) (st : AggState) :
    AggState :=
  steps.foldl (fun s p => agg_step timeout maxF s p.1 p.2) st

/-- The observation trace of the flush claim: motion at `t = 0` and `t = 1`,
then no motion at `t = 2, 3, ..., k + 1`. -/
def flush_trace (k : ℕ) : List (ℚ × Bool) :=
  [((0 : ℚ), true), ((1 : ℚ), true)] ++
    (List.range' 2 k).map (fun (t : ℕ) => ((t : ℚ), false))

/-! ## MP4 build path (`AlertBuilder.build_mp4`, `src/gif_builder.py` 140–198)

The filesystem effects are modelled by a `ScratchDir` state: the set of frame
files written into the scratch directory, and whether the directory exists.
The encoder invocation `subprocess.run(ffmpeg_cmd, ...)` has three relevant
outcomes: it returns with exit code 0, returns with a nonzero exit code, or
raises (e.g. `FileNotFoundError` when ffmpeg is absent).  In the source the
cleanup block (lines 189–192) sits after the invocation inside the `try:`, so
a raised exception transfers control to the `except:` handler (line 196),
which returns `False` without running the cleanup. -/

inductive EncodeOutcome
  | success
  | failExit
  | raises
deriving DecidableEq, Repr

/-- The scratch directory: indices of the frame files it holds, and whether
the directory itself exists. -/
structure ScratchDir where
  files : List ℕ
  dirExists : Bool
deriving DecidableEq, Repr

/-- `AlertBuilder.build_mp4`: returns the success flag and the state of the
scratch directory after the call returns. -/
def build_mp4 {α : Type} (maxF : ℕ) (frames : List α) (encode : EncodeOutcome) :
    Bool × ScratchDir :=
  if frames.isEmpty then
    -- `if not frames: return False` — before any scratch file is written
    (false, ⟨[], false⟩)
  else
    let fs := decimate_frames maxF frames
    -- mkdir, then one `cv2.imwrite` per decimated frame (`frame_{i:04d}.jpg`)
    let s1 : ScratchDir := ⟨List.range fs.length, true⟩
    match encode with
    | EncodeOutcome.raises =>
      -- exception inside subprocess.run: the except handler logs and
      -- returns False; the cleanup block is skipped
      (false, s1)
    | EncodeOutcome.success =>
      -- `for frame_path in frame_paths: frame_path.unlink(...)`, then
      -- `temp_frames_dir.rmdir()` on the now-empty directory
      (true, ⟨s1.files.filter (fun f => f ∉ List.range fs.length), false⟩)
    | EncodeOutcome.failExit =>
      (false, ⟨s1.files.filter (fun f => f ∉ List.range fs.length), false⟩)

/-! ## Frame persistence (`MotionDetector._save_frame_data`, lines 434–491)

The method's observable actions are modelled as an effect list.  In the
source, the block that writes the metadata JSON, calls `db.insert_detection`
and optionally saves the ML copy (lines 456–488) is indented inside the
`else:` branch *after* its `return` statement, so it is unreachable: when a
crop is present the method writes the JPEG and falls off the end; when no
crop is present it logs a warning and returns. -/

inductive SaveEffect
  | imwriteCrop
  | warnNoCrop
  | writeMetaJson
  | dbInsert
  | imwriteMl
deriving DecidableEq, Repr

/-- `MotionDetector._save_frame_data`, as the list of effects it performs for
a frame with (`hasCrop`) or without a high-res crop, with (`hasBbox`) or
without a bbox, and with ML-frame saving configured on or off.  The
parameters other than `hasCrop` are listed because the dead block at lines
456–488 branches on them; no reachable code does. -/
def save_frame_data (hasCrop _hasBbox _saveMl : Bool) : List SaveEffect :=
  if hasCrop then
    [SaveEffect.imwriteCrop]
  else
    -- warning + `return`; lines 456–488 follow the return and never run
    [SaveEffect.warnNoCrop]

/-- `MotionDetector._process_motion_event`: saves every frame of the event in
order (each `_save_frame_data` call has its own `try/except`, so one frame's
failure never aborts the loop). -/
def process_motion_event (frames : List (Bool × Bool)) (saveMl : Bool) :
    List SaveEffect :=
  (frames.map (fun fr => save_frame_data fr.1 fr.2 saveMl)).flatten

/-! # Helper lemmas -/

/-- On a locked state, a call in which both the template match and the
comparator fallback fail decays the confidence by 0.8 and clears the lock
exactly when the decayed confidence is below 0.3. -/
lemma failStep_locked (b : Bbox) (c : ℚ) :
    failStep ⟨some b, c⟩ =
      if c * 0.8 < 0.3 then ⟨none, c * 0.8⟩ else ⟨some b, c * 0.8⟩ := by
  simp only [failStep, track_turtle, template_tracking_comparison]
  split <;> rfl

/-! # Claim C1 — failed template match: fallback and confidence decay

The claim asserts that after a failed template match the confidence always
equals 0.8 × its previous value, *regardless of the fallback outcome*.  The
code disagrees: when the comparator fallback finds motion,
`_template_tracking_comparison` returns that box with `has_motion = True`, so
`track_turtle` takes the success branch and *increases* the confidence to
`min(1, conf + 0.1)` (lines 62–68). -/

/-- C1 (counterexample): with a lock at confidence 1.0, a failed template
match (`tmplRes = none`) whose comparator fallback finds motion leaves the
confidence at `min 1 (1 + 0.1) = 1`; since `0.8 × 1 < 1`, the confidence
after the call is not 0.8 times the confidence before it. -/
theorem c1_counterexample :
    (track_turtle ⟨some ⟨0, 0, 50, 50⟩, 1⟩ none
        (some ⟨10, 10, 50, 50⟩)).2.tracking_confidence = 1 ∧
    (0.8 * 1 : ℚ) < 1 := by
  constructor
  · simp only [track_turtle, template_tracking_comparison]
    norm_num
  · norm_num

/-- C1 (amended): when a locked tracker fails template matching, the call's
motion outcome is exactly that of the fresh comparator fallback pass; the
confidence decays to 0.8 × its previous value when the fallback also finds no
motion, and rises to `min 1 (conf + 0.1)` when the fallback finds motion. -/
theorem c1_failed_match_fallback (st : TrackerState) (last : Bbox)
    (h : st.last_bbox = some last) :
    (∀ locRes : Option Bbox,
        ((track_turtle st none locRes).1).1 = locRes.isSome) ∧
    (track_turtle st none none).2.tracking_confidence
        = st.tracking_confidence * 0.8 ∧
    (∀ b : Bbox, (track_turtle st none (some b)).2.tracking_confidence
        = min 1 (st.tracking_confidence + 0.1)) := by
  obtain ⟨lb, c⟩ := st
  simp only at h
  subst h
  refine ⟨?_, ?_, ?_⟩
  · intro locRes
    cases locRes with
    | none =>
      simp only [track_turtle, template_tracking_comparison, Option.isSome_none]
      split <;> rfl
    | some b =>
      simp [track_turtle, template_tracking_comparison]
  · simp only [track_turtle, template_tracking_comparison]
    split <;> rfl
  · intro b
    simp [track_turtle, template_tracking_comparison]

/-- C1 (witness): the amended theorem applied to a locked tracker at
confidence 1/2. -/
theorem c1_witness :
    (track_turtle ⟨some ⟨1, 2, 3, 4⟩, 1/2⟩ none none).2.tracking_confidence
      = (1/2 : ℚ) * 0.8 :=
  (c1_failed_match_fallback ⟨some ⟨1, 2, 3, 4⟩, 1/2⟩ ⟨1, 2, 3, 4⟩ rfl).2.1

/-! # Claim C5 — confidence decay across consecutive failures -/

/-- C5: starting from a locked tracker with confidence 1.0, consecutive track
calls with failed template matches multiply the confidence by 0.8 each call
(`0.8, 0.64, 0.512, 0.4096, 0.32768, 0.262144`), so it is strictly
decreasing; through the fifth failure the decayed confidence stays at or
above the 0.3 floor and the lock is retained, and on the sixth failure it
drops below 0.3 and the lock is cleared in that same call. -/
theorem c5_decay_and_lock_drop (b : Bbox) :
    failIter b 1 = ⟨some b, 4/5⟩ ∧
    failIter b 2 = ⟨some b, 16/25⟩ ∧
    failIter b 3 = ⟨some b, 64/125⟩ ∧
    failIter b 4 = ⟨some b, 256/625⟩ ∧
    failIter b 5 = ⟨some b, 1024/3125⟩ ∧
    failIter b 6 = ⟨none, 4096/15625⟩ ∧
    ((4/5 : ℚ) < 1 ∧ (16/25 : ℚ) < 4/5 ∧ (64/125 : ℚ) < 16/25 ∧
      (256/625 : ℚ) < 64/125 ∧ (1024/3125 : ℚ) < 256/625 ∧
      (4096/15625 : ℚ) < 1024/3125) ∧
    (3/10 : ℚ) ≤ 1024/3125 ∧ (4096/15625 : ℚ) < 3/10 := by
  have e1 : failIter b 1 = failStep ⟨some b, 1⟩ := rfl
  rw [failStep_locked] at e1
  norm_num at e1
  have e2 : failIter b 2 = failStep (failIter b 1) := rfl
  rw [e1, failStep_locked] at e2
  norm_num at e2
  have e3 : failIter b 3 = failStep (failIter b 2) := rfl
  rw [e2, failStep_locked] at e3
  norm_num at e3
  have e4 : failIter b 4 = failStep (failIter b 3) := rfl
  rw [e3, failStep_locked] at e4
  norm_num at e4
  have e5 : failIter b 5 = failStep (failIter b 4) := rfl
  rw [e4, failStep_locked] at e5
  norm_num at e5
  have e6 : failIter b 6 = failStep (failIter b 5) := rfl
  rw [e5, failStep_locked] at e6
  norm_num at e6
  exact ⟨e1, e2, e3, e4, e5, e6, by norm_num, by norm_num, by norm_num⟩

/-! # Claim C10 — return values when both comparisons fail -/

/-- C10: with a lock held and both the template match and the comparator
fallback finding no motion, `track_turtle` returns `(False, last_bbox)` — the
retained stale box — whenever the decayed confidence is at or above the 0.3
floor, and returns `(False, None)` with the lock cleared within the same call
exactly when the decayed confidence falls below the floor. -/
theorem c10_stale_bbox_until_floor (st : TrackerState) (last : Bbox)
    (h : st.last_bbox = some last) :
    (¬ st.tracking_confidence * 0.8 < 0.3 →
        track_turtle st none none
          = ((false, some last), ⟨some last, st.tracking_confidence * 0.8⟩)) ∧
    (st.tracking_confidence * 0.8 < 0.3 →
        track_turtle st none none
          = ((false, none), ⟨none, st.tracking_confidence * 0.8⟩)) := by
  obtain ⟨lb, c⟩ := st
  simp only at h
  subst h
  constructor
  · intro hge
    simp only [track_turtle, template_tracking_comparison]
    rw [if_neg hge]
  · intro hlt
    simp only [track_turtle, template_tracking_comparison]
    rw [if_pos hlt]

/-- C10 (witness): both branches of the theorem at concrete confidences
1 (decays to 0.8, lock kept) and 1/4 (decays to 0.2, lock dropped). -/
theorem c10_witness :
    track_turtle ⟨some ⟨5, 6, 7, 8⟩, 1⟩ none none
      = ((false, some ⟨5, 6, 7, 8⟩), ⟨some ⟨5, 6, 7, 8⟩, 1 * 0.8⟩) ∧
    track_turtle ⟨some ⟨5, 6, 7, 8⟩, 1/4⟩ none none
      = ((false, none), ⟨none, 1/4 * 0.8⟩) :=
  ⟨(c10_stale_bbox_until_floor ⟨some ⟨5, 6, 7, 8⟩, 1⟩ ⟨5, 6, 7, 8⟩ rfl).1
      (by norm_num),
   (c10_stale_bbox_until_floor ⟨some ⟨5, 6, 7, 8⟩, 1/4⟩ ⟨5, 6, 7, 8⟩ rfl).2
      (by norm_num)⟩

/-! # Claim C8 — bounding boxes stay inside the frame -/

/-- `int(a * (b / c))` over nonnegative integers equals the integer division
`a * b / c`. -/
lemma pyInt_cast_mul_div_eq (a b c : ℕ) :
    pyInt ((a : ℚ) * ((b : ℚ) / (c : ℚ))) = a * b / c := by
  unfold pyInt
  rw [show (a : ℚ) * ((b : ℚ) / (c : ℚ)) = ((a * b : ℕ) : ℚ) / ((c : ℕ) : ℚ) by
    push_cast; ring]
  rw [Nat.floor_div_nat, Nat.floor_natCast]

/-- `a*n/c + b*n/c ≤ n` when `a + b ≤ c` (integer division). -/
lemma nat_div_add_div_le (a b c n : ℕ) (h : a + b ≤ c) :
    a * n / c + b * n / c ≤ n := by
  rcases Nat.eq_zero_or_pos c with hc | hc
  · subst hc
    simp
  · have h1 : (a * n / c + b * n / c) * c ≤ a * n + b * n := by
      have ha := Nat.div_mul_le_self (a * n) c
      have hb := Nat.div_mul_le_self (b * n) c
      calc (a * n / c + b * n / c) * c
          = a * n / c * c + b * n / c * c := by ring
        _ ≤ a * n + b * n := Nat.add_le_add ha hb
    have h2 : a * n + b * n ≤ n * c := by
      calc a * n + b * n = (a + b) * n := by ring
        _ ≤ c * n := Nat.mul_le_mul_right n h
        _ = n * c := Nat.mul_comm c n
    exact Nat.le_of_mul_le_mul_right (h1.trans h2) hc

/-- A bounding rectangle found inside the `cw × ch` downscaled image scales
back to a box inside the `W × H` frame. -/
lemma scale_bbox_inFrame (W H cw ch : ℕ) (bs : Bbox)
    (hx : bs.x + bs.w ≤ cw) (hy : bs.y + bs.h ≤ ch) :
    inFrame W H (scale_bbox W H cw ch bs) := by
  refine ⟨Nat.zero_le _, Nat.zero_le _, ?_, ?_⟩
  · show pyInt _ + pyInt _ ≤ W
    rw [pyInt_cast_mul_div_eq, pyInt_cast_mul_div_eq]
    exact nat_div_add_div_le _ _ _ _ hx
  · show pyInt _ + pyInt _ ≤ H
    rw [pyInt_cast_mul_div_eq, pyInt_cast_mul_div_eq]
    exact nat_div_add_div_le _ _ _ _ hy

/-- An accepted template match whose location lies inside the correlation
result (`max_loc` bounded by search size minus template size) yields a box
inside the frame, provided the previous box was inside the frame. -/
lemma template_match_inFrame (W H : ℕ) (prev : Bbox) (mx my : ℕ)
    (hprev : inFrame W H prev)
    (hmx : mx + tmpl_w W prev ≤ search_w W prev)
    (hmy : my + tmpl_h H prev ≤ search_h H prev) :
    inFrame W H (template_match_bbox prev mx my) := by
  obtain ⟨-, -, h1, h2⟩ := hprev
  unfold tmpl_w search_w at hmx
  unfold tmpl_h search_h at hmy
  refine ⟨Nat.zero_le _, Nat.zero_le _, ?_, ?_⟩
  · show prev.x - 100 + mx + prev.w ≤ W
    omega
  · show prev.y - 100 + my + prev.h ≤ H
    omega

/-- The floor of a sum of two nonnegative rationals bounded by `n` is bounded
by `n`. -/
lemma pyInt_add_le (q r : ℚ) (n : ℕ) (hq : 0 ≤ q) (hr : 0 ≤ r)
    (h : q + r ≤ n) : pyInt q + pyInt r ≤ n := by
  have h1 : (pyInt q : ℚ) ≤ q := Nat.floor_le hq
  have h2 : (pyInt r : ℚ) ≤ r := Nat.floor_le hr
  have : ((pyInt q + pyInt r : ℕ) : ℚ) ≤ (n : ℚ) := by push_cast; linarith
  exact_mod_cast this

/-- Exponential smoothing of two boxes inside the frame stays inside the
frame. -/
lemma smooth_bbox_inFrame (W H : ℕ) (nb ob : Bbox)
    (hn : inFrame W H nb) (ho : inFrame W H ob) :
    inFrame W H (smooth_bbox nb ob) := by
  obtain ⟨-, -, hn1, hn2⟩ := hn
  obtain ⟨-, -, ho1, ho2⟩ := ho
  have hn1q : (nb.x : ℚ) + nb.w ≤ W := by exact_mod_cast hn1
  have hn2q : (nb.y : ℚ) + nb.h ≤ H := by exact_mod_cast hn2
  have ho1q : (ob.x : ℚ) + ob.w ≤ W := by exact_mod_cast ho1
  have ho2q : (ob.y : ℚ) + ob.h ≤ H := by exact_mod_cast ho2
  refine ⟨Nat.zero_le _, Nat.zero_le _, ?_, ?_⟩
  · exact pyInt_add_le _ _ _ (by positivity) (by positivity) (by linarith)
  · exact pyInt_add_le _ _ _ (by positivity) (by positivity) (by linarith)

/-- C8: every box produced by contour scaling from the downscaled image, by
template matching, or by exponential smoothing of two boxes satisfies
`0 ≤ x`, `0 ≤ y`, `x + width ≤ frame_width`, `y + height ≤ frame_height`,
given the geometric guarantees of the producing primitives (a contour
bounding rectangle lies inside the downscaled image; a template-match
location lies inside the correlation result; the smoothed boxes lie inside
the frame). -/
theorem c8_bbox_bounds :
    (∀ (W H cw ch : ℕ) (bs : Bbox), bs.x + bs.w ≤ cw → bs.y + bs.h ≤ ch →
        inFrame W H (scale_bbox W H cw ch bs)) ∧
    (∀ (W H : ℕ) (prev : Bbox) (mx my : ℕ), inFrame W H prev →
        mx + tmpl_w W prev ≤ search_w W prev →
        my + tmpl_h H prev ≤ search_h H prev →
        inFrame W H (template_match_bbox prev mx my)) ∧
    (∀ (W H : ℕ) (nb ob : Bbox), inFrame W H nb → inFrame W H ob →
        inFrame W H (smooth_bbox nb ob)) :=
  ⟨scale_bbox_inFrame, template_match_inFrame, smooth_bbox_inFrame⟩

/-- C8 (witness): the three producers at concrete inputs for a 4656 × 3496
frame with a 320 × 240 comparison image. -/
theorem c8_witness :
    inFrame 4656 3496 (scale_bbox 4656 3496 320 240 ⟨30, 40, 50, 60⟩) ∧
    inFrame 4656 3496 (template_match_bbox ⟨200, 300, 50, 60⟩ 100 50) ∧
    inFrame 4656 3496 (smooth_bbox ⟨10, 20, 30, 40⟩ ⟨50, 60, 70, 80⟩) :=
  ⟨c8_bbox_bounds.1 4656 3496 320 240 ⟨30, 40, 50, 60⟩ (by decide) (by decide),
   c8_bbox_bounds.2.1 4656 3496 ⟨200, 300, 50, 60⟩ 100 50 (by decide)
     (by decide) (by decide),
   c8_bbox_bounds.2.2 4656 3496 ⟨10, 20, 30, 40⟩ ⟨50, 60, 70, 80⟩ (by decide)
     (by decide)⟩

/-! # Claim C9 — the stripe check and the frame's height

The claim asserts a frame whose middle row has fewer than 10 distinct values
is flagged *whatever the frame's height*.  The source guards the stripe check
with `if frame.shape[0] > 100:` (line 286), so short frames skip it. -/

/-- A 51-row frame (25 rows of value 90, one row of value 100, 25 rows of
value 110): mean 100, variance 5000/51 ≈ 98 — both inside the accepted
ranges — and a single-valued middle row. -/
def shortStripeFrame : List (List ℕ) :=
  List.replicate 25 [90] ++ [[100]] ++ List.replicate 25 [110]

/-- The same frame pattern at 101 rows, which does exceed the 100-row guard. -/
def tallStripeFrame : List (List ℕ) :=
  List.replicate 50 [90] ++ [[100]] ++ List.replicate 50 [110]

/-- C9 (counterexample): `shortStripeFrame` has only 51 rows; its sampled
middle row (row 25, value 100) has a single distinct intensity value, yet the
filter does not flag it, because the stripe check only runs for frames with
more than 100 rows. -/
theorem c9_counterexample :
    uniqueCount (middleRow shortStripeFrame) < 10 ∧
    is_frame_corrupted shortStripeFrame = false := by
  constructor
  · decide
  · have hc : pixCount shortStripeFrame = 51 := by decide
    have hs : pixSum shortStripeFrame = 5100 := by decide
    have hq : pixSqSum shortStripeFrame = 515000 := by decide
    have hl : shortStripeFrame.length = 51 := by decide
    have hm : frameMean shortStripeFrame = 100 := by
      rw [frameMean, hs, hc]; norm_num
    have hv : frameVar shortStripeFrame = 5000 / 51 := by
      rw [frameVar, hq, hc, hm]; norm_num
    rw [is_frame_corrupted, hc, hm, hv, hl]
    norm_num

/-- C9 (amended): for every frame with more than 100 rows whose sampled
middle row contains fewer than 10 distinct intensity values, the corruption
filter flags the frame as corrupted; frames of 100 rows or fewer skip the
stripe check entirely. -/
theorem c9_stripe_flags_tall_frames (f : List (List ℕ))
    (hl : 100 < f.length) (hu : uniqueCount (middleRow f) < 10) :
    is_frame_corrupted f = true := by
  unfold is_frame_corrupted
  repeat' split
  all_goals first | rfl | omega

/-- C9 (witness): the amended theorem applied to the 101-row stripe frame. -/
theorem c9_witness :
    100 < tallStripeFrame.length ∧
    uniqueCount (middleRow tallStripeFrame) < 10 ∧
    is_frame_corrupted tallStripeFrame = true :=
  ⟨by decide, by decide,
   c9_stripe_flags_tall_frames tallStripeFrame (by decide) (by decide)⟩

/-! # Claim C3 — decimation indices

The claim asserts output position `i` holds the source frame at index
`round(i * len(frames)/max)`.  The source computes `int(i * decimation)`,
which truncates (= floors) instead of rounding. -/

/-- C3 (counterexample): 7 frames decimated to 4.  At output position 1 the
code yields `frames[int(1.75)] = frames[1]`, while the claimed formula gives
`frames[round(1.75)] = frames[2]`. -/
theorem c3_counterexample :
    (decimate_frames 4 ([0, 1, 2, 3, 4, 5, 6] : List ℕ))[1]? = some 1 ∧
    round ((1 * 7 : ℚ) / 4) = 2 ∧
    ([0, 1, 2, 3, 4, 5, 6] : List ℕ)[2]? = some 2 ∧ (1 : ℕ) ≠ 2 := by
  have h : decimate_frames 4 ([0, 1, 2, 3, 4, 5, 6] : List ℕ) = [0, 1, 3, 5] := by
    unfold decimate_frames
    rw [if_neg (by decide)]
    simp only [pyInt_cast_mul_div_eq]
    decide
  refine ⟨by rw [h]; decide, ?_, by decide, by decide⟩
  rw [round_eq]
  norm_num

/-- C3 (amended): when the input length exceeds `maxF > 0`, decimation
returns exactly `maxF` frames, output position `i` holds the source frame at
index `⌊i * len(frames)/maxF⌋` (floor, not round), and those indices are
strictly increasing, preserving chronological order. -/
theorem c3_decimation_floor {α : Type} (m : ℕ) (frames : List α)
    (hm : 0 < m) (hL : m < frames.length) :
    (decimate_frames m frames).length = m ∧
    (∀ i, i < m →
        (decimate_frames m frames)[i]? = frames[i * frames.length / m]?) ∧
    (∀ i j, i < j → j < m →
        i * frames.length / m < j * frames.length / m) := by
  have hL0 : 0 < frames.length := lt_of_le_of_lt (Nat.zero_le m) hL
  have hne : frames ≠ [] := List.length_pos.mp hL0
  have hidx : ∀ i, i < m → i * frames.length / m < frames.length := by
    intro i hi
    rw [Nat.div_lt_iff_lt_mul hm]
    calc i * frames.length < m * frames.length :=
          (Nat.mul_lt_mul_right hL0).2 hi
      _ = frames.length * m := Nat.mul_comm m frames.length
  have heq : decimate_frames m frames
      = (List.range m).map
          (fun i => frames.getD (i * frames.length / m) (frames.head hne)) := by
    unfold decimate_frames
    rw [if_neg (by omega)]
    have hfun : ∀ i ∈ List.range m,
        (if pyInt ((i : ℚ) * ((frames.length : ℚ) / (m : ℚ))) < frames.length
          then frames[pyInt ((i : ℚ) * ((frames.length : ℚ) / (m : ℚ)))]?
          else none)
        = some (frames.getD (i * frames.length / m) (frames.head hne)) := by
      intro i hi
      have hi' : i < m := List.mem_range.mp hi
      simp only [pyInt_cast_mul_div_eq]
      rw [if_pos (hidx i hi'), List.getElem?_eq_getElem (hidx i hi'),
        List.getD_eq_getElem frames (frames.head hne) (hidx i hi')]
    exact List.filterMap_eq_map_iff_forall_eq_some.mpr hfun
  refine ⟨?_, ?_, ?_⟩
  · rw [heq, List.length_map, List.length_range]
  · intro i hi
    rw [heq, List.getElem?_map, List.getElem?_range hi, Option.map_some',
      List.getD_eq_getElem frames (frames.head hne) (hidx i hi),
      List.getElem?_eq_getElem (hidx i hi)]
  · intro i j hij hj
    have h1 : i * frames.length + m < j * frames.length := by
      calc i * frames.length + m < i * frames.length + frames.length := by omega
        _ = (i + 1) * frames.length := by ring
        _ ≤ j * frames.length := Nat.mul_le_mul_right frames.length (by omega)
    have h2 : (i * frames.length + m) / m ≤ j * frames.length / m :=
      Nat.div_le_div_right (le_of_lt h1)
    rw [Nat.add_div_right _ hm] at h2
    omega

/-- C3 (witness): the amended theorem at 7 frames decimated to 4. -/
theorem c3_witness :
    (decimate_frames 4 ([0, 1, 2, 3, 4, 5, 6] : List ℕ)).length = 4 ∧
    (∀ i, i < 4 →
        (decimate_frames 4 ([0, 1, 2, 3, 4, 5, 6] : List ℕ))[i]?
          = ([0, 1, 2, 3, 4, 5, 6] : List ℕ)[i * ([0, 1, 2, 3, 4, 5, 6] : List ℕ).length / 4]?) ∧
    (∀ i j, i < j → j < 4 →
        i * ([0, 1, 2, 3, 4, 5, 6] : List ℕ).length / 4
          < j * ([0, 1, 2, 3, 4, 5, 6] : List ℕ).length / 4) :=
  c3_decimation_floor 4 [0, 1, 2, 3, 4, 5, 6] (by decide) (by decide)

/-! # Claim C6 — event buffer cap (FIFO eviction) -/

/-- Folding `event_append` over a frame list from a buffer within the cap
keeps the suffix of the combined list that fits the cap: appends evict the
oldest element whenever the cap would be exceeded. -/
lemma event_feed_drop {α : Type} (m : ℕ) :
    ∀ (l buf : List α), buf.length ≤ m →
      List.foldl (event_append m) buf l
        = (buf ++ l).drop (buf.length + l.length - m) := by
  intro l
  induction l with
  | nil =>
    intro buf hb
    simp [Nat.sub_eq_zero_of_le hb]
  | cons f l ih =>
    intro buf hb
    rw [List.foldl_cons]
    by_cases hc : m < (buf ++ [f]).length
    · have hbm : buf.length = m := by
        simp only [List.length_append, List.length_singleton] at hc
        omega
      have hstep : event_append m buf f = (buf ++ [f]).drop 1 := by
        unfold event_append
        rw [if_pos hc]
      have hlen : ((buf ++ [f]).drop 1).length ≤ m := by
        simp only [List.length_drop, List.length_append, List.length_singleton]
        omega
      rw [hstep, ih _ hlen]
      rw [← List.drop_append_of_le_length (by simp)]
      rw [List.drop_drop]
      rw [List.append_assoc, List.singleton_append]
      congr 1
      simp only [List.length_drop, List.length_append, List.length_singleton,
        List.length_cons, List.length_nil]
      omega
    · have hstep : event_append m buf f = buf ++ [f] := by
        unfold event_append
        rw [if_neg hc]
      have hlen : (buf ++ [f]).length ≤ m := by
        simp only [List.length_append, List.length_singleton] at hc ⊢
        omega
      rw [hstep, ih _ hlen]
      rw [List.append_assoc, List.singleton_append]
      congr 1
      simp only [List.length_append, List.length_singleton, List.length_cons,
        List.length_nil]
      omega

/-- C6: feeding `max_frames + 5` motion frames into one event leaves exactly
the most recent `max_frames` frames in insertion order (the oldest 5 evicted
FIFO), and after any on-frame step the buffer never exceeds `max_frames`. -/
theorem c6_frame_cap {α : Type} (m : ℕ) (l : List α) (h : l.length = m + 5) :
    event_feed m l = l.drop 5 ∧
    (event_feed m l).length = m ∧
    (∀ k : ℕ, (List.foldl (event_append m) [] (l.take k)).length ≤ m) := by
  have hfeed : event_feed m l = l.drop (l.length - m) := by
    unfold event_feed
    rw [event_feed_drop m l [] (by simp)]
    simp
  refine ⟨?_, ?_, ?_⟩
  · rw [hfeed, h]
    congr 1
    omega
  · rw [hfeed, List.length_drop]
    omega
  · intro k
    rw [event_feed_drop m (l.take k) [] (by simp)]
    simp only [List.nil_append, List.length_nil, List.length_drop,
      List.length_take, Nat.zero_add]
    omega

/-- C6 (witness): cap 3, eight frames fed — the buffer ends as `[5, 6, 7]`. -/
theorem c6_witness :
    event_feed 3 ([0, 1, 2, 3, 4, 5, 6, 7] : List ℕ)
        = ([0, 1, 2, 3, 4, 5, 6, 7] : List ℕ).drop 5 ∧
    (event_feed 3 ([0, 1, 2, 3, 4, 5, 6, 7] : List ℕ)).length = 3 ∧
    (∀ k : ℕ,
      (List.foldl (event_append 3) []
          (([0, 1, 2, 3, 4, 5, 6, 7] : List ℕ).take k)).length ≤ 3) :=
  c6_frame_cap 3 [0, 1, 2, 3, 4, 5, 6, 7] (by decide)

/-! # Claim C7 — event flush after inactivity

The flush condition is the strict
`current_time - last_motion_time > inactivity_timeout` (line 624): with
motion last seen at `t = 1`, a no-motion step at time `t` flushes only when
`t - 1 > timeout`, i.e. from `t = timeout + 2` on.  Through
`t = timeout + 1` — the window asserted by the claim — nothing has flushed
yet. -/

/-- Running the aggregator over consecutive no-motion observations none of
which exceeds the inactivity timeout leaves the state unchanged. -/
lemma agg_noop (tmo : ℚ) (maxF : ℕ) :
    ∀ (n s : ℕ) (st : AggState),
      (∀ t ∈ List.range' s n, ¬ tmo < (t : ℚ) - st.last_motion_time) →
      agg_run tmo maxF
          ((List.range' s n).map (fun (t : ℕ) => ((t : ℚ), false))) st = st := by
  intro n
  induction n with
  | zero => intro s st _; rfl
  | succ n ih =>
    intro s st h
    rw [List.range'_succ, List.map_cons]
    show agg_run tmo maxF _ (agg_step tmo maxF st s false) = _
    have hstep : agg_step tmo maxF st s false = st := by
      unfold agg_step
      simp only [Bool.false_eq_true, if_false]
      rw [if_neg]
      intro hcon
      exact h s (by rw [List.range'_succ]; exact List.mem_cons_self s _) hcon.2
    rw [hstep]
    exact ih (s + 1) st (fun t ht =>
      h t (by rw [List.range'_succ]; exact List.mem_cons_of_mem _ ht))

/-- The two motion observations at `t = 0` and `t = 1` leave the aggregator
with both frames buffered and `last_motion_time = 1` (no eviction as long as
the cap admits two frames). -/
lemma agg_motion2 (tmo : ℚ) (maxF : ℕ) (h : 2 ≤ maxF) :
    agg_run tmo maxF [((0 : ℚ), true), ((1 : ℚ), true)] agg_init
      = ⟨[0, 1], 1, []⟩ := by
  have h1 : event_append maxF ([] : List ℚ) 0 = [0] := by
    unfold event_append
    rw [if_neg (by simp; omega)]
    rfl
  have h2 : event_append maxF ([0] : List ℚ) 1 = [0, 1] := by
    unfold event_append
    rw [if_neg (by simp; omega)]
    rfl
  show agg_step tmo maxF (agg_step tmo maxF agg_init 0 true) 1 true = _
  simp only [agg_step, agg_init, if_true]
  rw [h1, h2]

/-- Running over a concatenation of traces runs them in sequence. -/
lemma agg_run_append (tmo : ℚ) (maxF : ℕ) (l1 l2 : List (ℚ × Bool))
    (st : AggState) :
    agg_run tmo maxF (l1 ++ l2) st
      = agg_run tmo maxF l2 (agg_run tmo maxF l1 st) := by
  unfold agg_run
  rw [List.foldl_append]

/-- A single observation is one aggregator step. -/
lemma agg_run_single (tmo : ℚ) (maxF : ℕ) (p : ℚ × Bool) (st : AggState) :
    agg_run tmo maxF [p] st = agg_step tmo maxF st p.1 p.2 := rfl

/-- C7 (counterexample): with `inactivity_timeout = 8` (the configured
default) and cap 16, motion at `t = 0, 1` followed by no motion at
`t = 2 … 9 = timeout + 1` produces *no* flush — the claim asserts exactly
one — and the two frames are still buffered. -/
theorem c7_counterexample :
    (agg_run 8 16 (flush_trace 8) agg_init).flushed = [] ∧
    (agg_run 8 16 (flush_trace 8) agg_init).current_event_frames = [0, 1] := by
  norm_num [agg_run, flush_trace, agg_step, agg_init, event_append, List.range']

/-- C7 (amended): extending the quiet period by one step, to
`t = 2 … timeout + 2`, the event flushes exactly once, the flushed event
contains exactly the two frames from `t = 0` and `t = 1`, and the buffer is
left empty, so no later frame can join the event.  The first flushing step is
`t = timeout + 2`, the first time `t - 1 > timeout` holds. -/
theorem c7_flush_once (tau : ℕ) (maxF : ℕ) (hm : 2 ≤ maxF) :
    (agg_run (tau : ℚ) maxF (flush_trace (tau + 1)) agg_init).flushed
        = [[0, 1]] ∧
    (agg_run (tau : ℚ) maxF (flush_trace (tau + 1)) agg_init).current_event_frames
        = [] := by
  have hsplit : flush_trace (tau + 1)
      = ([((0 : ℚ), true), ((1 : ℚ), true)]
          ++ (List.range' 2 tau).map (fun (t : ℕ) => ((t : ℚ), false)))
        ++ [(((2 + 1 * tau : ℕ) : ℚ), false)] := by
    unfold flush_trace
    rw [List.range'_concat, List.map_append]
    simp [List.append_assoc]
  have hS2 : agg_run (tau : ℚ) maxF
      ([((0 : ℚ), true), ((1 : ℚ), true)]
        ++ (List.range' 2 tau).map (fun (t : ℕ) => ((t : ℚ), false))) agg_init
      = ⟨[0, 1], 1, []⟩ := by
    rw [agg_run_append, agg_motion2 _ _ hm]
    apply agg_noop
    intro t ht hcon
    obtain ⟨h2, hlt⟩ := List.mem_range'_1.mp ht
    have hle : (t : ℚ) ≤ (tau : ℚ) + 1 := by
      have : t ≤ tau + 1 := by omega
      exact_mod_cast this
    simp only at hcon
    linarith
  have hcond : ([0, 1] : List ℚ) ≠ [] ∧ (tau : ℚ) < ((2 + 1 * tau : ℕ) : ℚ) - 1 := by
    constructor
    · simp
    · push_cast
      linarith
  have hfinal : agg_step (tau : ℚ) maxF ⟨[0, 1], 1, []⟩ (((2 + 1 * tau : ℕ) : ℚ)) false
      = ⟨[], 1, [[0, 1]]⟩ := by
    unfold agg_step
    simp only [Bool.false_eq_true, if_false]
    rw [if_pos hcond]
    rfl
  rw [hsplit, agg_run_append, hS2, agg_run_single, hfinal]
  exact ⟨rfl, rfl⟩

/-- C7 (witness): the amended theorem at the configured defaults
(`inactivity_timeout = 8`, `max_frames = 16`). -/
theorem c7_witness :
    (agg_run ((8 : ℕ) : ℚ) 16 (flush_trace (8 + 1)) agg_init).flushed
        = [[0, 1]] ∧
    (agg_run ((8 : ℕ) : ℚ) 16 (flush_trace (8 + 1)) agg_init).current_event_frames
        = [] :=
  c7_flush_once 8 16 (by decide)

/-! # Claim C4 — MP4 scratch cleanup

The cleanup block is *not* in a `finally`: it runs only when
`subprocess.run` returns.  If the invocation raises, the `except` handler
returns `False` with the scratch files still on disk. -/

/-- Filtering a range by non-membership in itself leaves nothing. -/
lemma range_filter_not_mem (n : ℕ) :
    (List.range n).filter (fun f => f ∉ List.range n) = [] := by
  apply List.filter_eq_nil_iff.mpr
  intro a ha
  simp only [decide_not, Bool.not_eq_true', decide_eq_false_iff_not, not_not]
  exact ha

/-- C4 (counterexample): one frame, encoder invocation raises — `build_mp4`
returns `False` with the scratch frame file still present and the scratch
directory still in place, contradicting "never retains frame files". -/
theorem c4_counterexample :
    (build_mp4 16 ([0] : List ℕ) EncodeOutcome.raises).2.files = [0] ∧
    (build_mp4 16 ([0] : List ℕ) EncodeOutcome.raises).2.dirExists = true := by
  have hdec : decimate_frames 16 ([0] : List ℕ) = [0] := by
    unfold decimate_frames
    rw [if_pos (by decide)]
  constructor
  · show (build_mp4 16 ([0] : List ℕ) EncodeOutcome.raises).2.files = [0]
    unfold build_mp4
    rw [if_neg (by decide), hdec]
    rfl
  · unfold build_mp4
    rw [if_neg (by decide), hdec]

/-- C4 (amended): whenever the encoder invocation returns — with exit code 0
or a nonzero exit — every scratch frame file is removed and the scratch
directory is deleted; only when the invocation raises does the except path
return `False` with the scratch files retained. -/
theorem c4_cleanup_on_return {α : Type} (maxF : ℕ) (frames : List α)
    (encode : EncodeOutcome) (h : encode ≠ EncodeOutcome.raises) :
    (build_mp4 maxF frames encode).2.files = [] ∧
    (build_mp4 maxF frames encode).2.dirExists = false := by
  unfold build_mp4
  by_cases he : frames.isEmpty
  · rw [if_pos he]
    exact ⟨rfl, rfl⟩
  · rw [if_neg he]
    cases encode with
    | raises => exact absurd rfl h
    | success => exact ⟨range_filter_not_mem _, rfl⟩
    | failExit => exact ⟨range_filter_not_mem _, rfl⟩

/-- C4 (witness): the amended theorem for both returning outcomes on a
two-frame input. -/
theorem c4_witness :
    ((build_mp4 16 ([0, 1] : List ℕ) EncodeOutcome.success).2.files = [] ∧
      (build_mp4 16 ([0, 1] : List ℕ) EncodeOutcome.success).2.dirExists = false) ∧
    ((build_mp4 16 ([0, 1] : List ℕ) EncodeOutcome.failExit).2.files = [] ∧
      (build_mp4 16 ([0, 1] : List ℕ) EncodeOutcome.failExit).2.dirExists = false) :=
  ⟨c4_cleanup_on_return 16 [0, 1] EncodeOutcome.success (by decide),
   c4_cleanup_on_return 16 [0, 1] EncodeOutcome.failExit (by decide)⟩

/-! # Claim C2 — per-frame persistence is never invoked

`_save_frame_data`'s metadata/database/ML block (motion_detector.py:456–488)
is indented inside the `else:` branch after its `return`, so it is dead code:
were it reachable it would raise `NameError` (`crop_path` and `crop_bgr` are
only assigned in the `if` branch).  Consequently `db.insert_detection` is
never called for any frame of any flushed event — the spec's per-frame
persistence contract describes the clearly intended, not the actual,
behaviour. -/

/-- C2: no flush ever performs a `db.insert_detection` (nor writes the
metadata sidecar): the persistence block of `_save_frame_data` is
unreachable, whatever mix of frames the event contains. -/
theorem c2_insert_detection_unreachable (frames : List (Bool × Bool))
    (saveMl : Bool) :
    (process_motion_event frames saveMl).count SaveEffect.dbInsert = 0 ∧
    (process_motion_event frames saveMl).count SaveEffect.writeMetaJson = 0 := by
  induction frames with
  | nil => exact ⟨rfl, rfl⟩
  | cons fr l ih =>
    unfold process_motion_event at ih ⊢
    rw [List.map_cons, List.flatten_cons, List.count_append, List.count_append]
    constructor
    · rw [ih.1]
      rcases fr with ⟨hc, hb⟩
      cases hc <;> rfl
    · rw [ih.2]
      rcases fr with ⟨hc, hb⟩
      cases hc <;> rfl

end Turtlecam
